import Mathlib

/-!
Verification development for the Online-Voting-System repository
(models.js, middleware.js, routes.js).

The JavaScript code is shallowly embedded: Mongoose documents become Lean
structures, the Mongo collections become lists inside a `DB` state record,
JavaScript `Date` instants become `Int` (milliseconds), and plain string-keyed
JavaScript objects (used by the tally loops) become `String → Option α` maps.
Each Express route handler, together with the middleware chain mounted in
front of it, becomes a function `DB → inputs → DB × Except ApiError response`.
Mongoose write failures on the `AuditLog` collection are modelled by the
`auditOk : Bool` parameter: the handlers `await` every `AuditLog.create`, so a
rejected audit write propagates as an error out of the handler.
-/

namespace Voting

/-- Candidate subdocument (models.js, CandidateSchema). -/
structure Candidate where
  id : String
  name : String
deriving DecidableEq

/-- Contest subdocument (models.js, ContestSchema). -/
structure Contest where
  id : String
  title : String
  candidates : List Candidate
  maxSelections : Nat
deriving DecidableEq

/-- Election document (models.js, ElectionSchema).  `startAt`/`endAt` are
instants in milliseconds; `_id` is modelled as a `Nat`. -/
structure Election where
  id : Nat
  name : String
  startAt : Int
  endAt : Int
  isOpen : Bool
  isPublished : Bool
  contests : List Contest
deriving DecidableEq

/-- Selection subdocument (models.js, SelectionSchema). -/
structure Selection where
  contestId : String
  selectedCandidateIds : List String
deriving DecidableEq

/-- AnonymousVote document (models.js, AnonymousVoteSchema).  Note that the
schema has no voter-identity field: only electionId, selections, the
submission instant and the receipt token. -/
structure AnonymousVote where
  electionId : Nat
  selections : List Selection
  submittedAt : Int
  receipt : String
deriving DecidableEq

/-- BallotAssignment document (models.js, BallotAssignmentSchema). -/
structure BallotAssignment where
  voterId : Nat
  electionId : Nat
  issuedAt : Int
  votedAt : Option Int
deriving DecidableEq

/-- AuditLog document (models.js, AuditLogSchema).  The Mixed `details`
payload is modelled by the two fields the routes actually write that matter
to the claims: the receipt recorded by `vote_submitted` and the vote count
recorded by `tally_run`. -/
structure AuditEntry where
  actor : String
  actorId : Option Nat
  action : String
  detailsReceipt : Option String
  detailsTotalVotes : Option Nat
deriving DecidableEq

/-- The verified identity attached to a request by authMiddleware
(middleware.js): the voter id, email and role taken from the Voter document. -/
structure User where
  id : Nat
  email : String
  role : String
deriving DecidableEq

/-- The persistent state: the four Mongo collections the routes touch.
`election` is an `Option` because the routes use `Election.findOne()` on a
single-election deployment. -/
structure DB where
  election : Option Election
  assignments : List BallotAssignment
  votes : List AnonymousVote
  auditLog : List AuditEntry
deriving DecidableEq

/-- The error outcomes the embedded routes produce, named after the spec's
taxonomy (§7): 500 "No election configured" → `noElection`; 403 "Election not
open" → `notEligible`; 403 "Already voted" → `alreadyVoted`; 403 "Admin only"
→ `notAuthorized`; 403 "Not published yet" → `notPublished`; a rejected
`await AuditLog.create(...)` → `auditWriteFailed`. -/
inductive ApiError where
  | noElection
  | notEligible
  | alreadyVoted
  | notAuthorized
  | notPublished
  | auditWriteFailed
deriving DecidableEq

/-- `BallotAssignment.findOne({ voterId, electionId })`. -/
def findAssignment (l : List BallotAssignment) (v e : Nat) : Option BallotAssignment :=
  l.find? (fun a => a.voterId == v && a.electionId == e)

/-- electionOpenMiddleware (middleware.js lines 51-62): load the single
election, reject when there is none, reject with 403 when
`!election.isOpen || now < election.startAt || now > election.endAt`. -/
def electionOpen (db : DB) (now : Int) : Except ApiError Election :=
  match db.election with
  | none => Except.error ApiError.noElection
  | some el =>
      if el.isOpen = false ∨ now < el.startAt ∨ el.endAt < now then
        Except.error ApiError.notEligible
      else Except.ok el

/-- oneBallotOnlyMiddleware (middleware.js lines 67-79): find the voter's
assignment for this election, create it (with `issuedAt` now and `votedAt`
defaulting to null) when missing, then reject with 403 "Already voted" when
`votedAt` is set. -/
def oneBallotOnly (db : DB) (v e : Nat) (now : Int) :
    DB × Except ApiError BallotAssignment :=
  match findAssignment db.assignments v e with
  | some record =>
      if record.votedAt.isSome then (db, Except.error ApiError.alreadyVoted)
      else (db, Except.ok record)
  | none =>
      let record : BallotAssignment :=
        { voterId := v, electionId := e, issuedAt := now, votedAt := none }
      ({ db with assignments := db.assignments ++ [record] }, Except.ok record)

/-- Every route `await`s its `AuditLog.create(...)`: on success the entry is
appended, and a storage failure propagates out of the handler as an error. -/
def auditWrite (db : DB) (auditOk : Bool) (entry : AuditEntry) :
    DB × Except ApiError Unit :=
  if auditOk then ({ db with auditLog := db.auditLog ++ [entry] }, Except.ok ())
  else (db, Except.error ApiError.auditWriteFailed)

/-- Response of GET /ballot/get. -/
structure BallotResponse where
  electionId : Nat
  name : String
  contests : List Contest
deriving DecidableEq

/-- Response of POST /vote/submit. -/
structure SubmitResponse where
  message : String
  receipt : String
deriving DecidableEq

/-- GET /ballot/get (routes.js lines 58-72): authMiddleware (the verified
`u : User` stands for `req.user`), electionOpenMiddleware,
oneBallotOnlyMiddleware, auditLogger with action `ballot_requested`, then the
handler answers with the election's id, name and contests. -/
def requestBallot (db : DB) (u : User) (now : Int) (auditOk : Bool) :
    DB × Except ApiError BallotResponse :=
  match electionOpen db now with
  | Except.error e => (db, Except.error e)
  | Except.ok el =>
      match oneBallotOnly db u.id el.id now with
      | (db1, Except.error e) => (db1, Except.error e)
      | (db1, Except.ok _) =>
          match auditWrite db1 auditOk
              { actor := u.email, actorId := some u.id, action := "ballot_requested",
                detailsReceipt := none, detailsTotalVotes := none } with
          | (db2, Except.error e) => (db2, Except.error e)
          | (db2, Except.ok _) =>
              (db2, Except.ok { electionId := el.id, name := el.name, contests := el.contests })

/-- `req.ballotAssignment.votedAt = new Date(); await req.ballotAssignment.save()`:
the voter's assignment document gets its `votedAt` field set. -/
def markVoted (l : List BallotAssignment) (v e : Nat) (now : Int) :
    List BallotAssignment :=
  l.map (fun a =>
    if a.voterId == v && a.electionId == e then { a with votedAt := some now } else a)

/-- POST /vote/submit (routes.js lines 79-110): authMiddleware,
electionOpenMiddleware, oneBallotOnlyMiddleware, then the handler creates the
AnonymousVote from `req.body.selections` as given (no validation of the
selections happens anywhere on this path), marks the assignment voted, writes
the `vote_submitted` audit entry carrying the voter's email, id and receipt,
and answers with the receipt.  The receipt is the 24 random bytes in hex,
modelled as an input. -/
def submitVote (db : DB) (u : User) (now : Int) (selections : List Selection)
    (receipt : String) (auditOk : Bool) : DB × Except ApiError SubmitResponse :=
  match electionOpen db now with
  | Except.error e => (db, Except.error e)
  | Except.ok el =>
      match oneBallotOnly db u.id el.id now with
      | (db1, Except.error e) => (db1, Except.error e)
      | (db1, Except.ok _) =>
          let db2 : DB := { db1 with votes := db1.votes ++
            [{ electionId := el.id, selections := selections,
               submittedAt := now, receipt := receipt }] }
          let db3 : DB := { db2 with assignments := markVoted db2.assignments u.id el.id now }
          match auditWrite db3 auditOk
              { actor := u.email, actorId := some u.id, action := "vote_submitted",
                detailsReceipt := some receipt, detailsTotalVotes := none } with
          | (db4, Except.error e) => (db4, Except.error e)
          | (db4, Except.ok _) =>
              (db4, Except.ok { message := "Vote submitted", receipt := receipt })

/-- adminMiddleware (middleware.js lines 42-46). -/
def adminGate (u : User) : Except ApiError Unit :=
  if u.role == "admin" then Except.ok () else Except.error ApiError.notAuthorized

/-- POST /admin/election/setup (routes.js lines 117-141): delete any existing
election and create the new one; `isOpen` and `isPublished` take their schema
defaults, false. -/
def setupElection (db : DB) (u : User) (newId : Nat) (name : String)
    (startAt endAt : Int) (contests : List Contest) (auditOk : Bool) :
    DB × Except ApiError Election :=
  match adminGate u with
  | Except.error e => (db, Except.error e)
  | Except.ok _ =>
      let el : Election :=
        { id := newId, name := name, startAt := startAt, endAt := endAt,
          isOpen := false, isPublished := false, contests := contests }
      let db1 : DB := { db with election := some el }
      match auditWrite db1 auditOk
          { actor := u.email, actorId := some u.id, action := "election_setup",
            detailsReceipt := none, detailsTotalVotes := none } with
      | (db2, Except.error e) => (db2, Except.error e)
      | (db2, Except.ok _) => (db2, Except.ok el)

/-- POST /admin/election/open (routes.js lines 144-161).  The handler reads
`Election.findOne()` without a null guard, so a missing election crashes; the
crash is modelled as the `noElection` error. -/
def openElection (db : DB) (u : User) (auditOk : Bool) : DB × Except ApiError String :=
  match adminGate u with
  | Except.error e => (db, Except.error e)
  | Except.ok _ =>
      match db.election with
      | none => (db, Except.error ApiError.noElection)
      | some el =>
          let db1 : DB := { db with election := some { el with isOpen := true } }
          match auditWrite db1 auditOk
              { actor := u.email, actorId := some u.id, action := "election_opened",
                detailsReceipt := none, detailsTotalVotes := none } with
          | (db2, Except.error e) => (db2, Except.error e)
          | (db2, Except.ok _) => (db2, Except.ok "Election opened")

/-- POST /admin/election/close (routes.js lines 164-181). -/
def closeElection (db : DB) (u : User) (auditOk : Bool) : DB × Except ApiError String :=
  match adminGate u with
  | Except.error e => (db, Except.error e)
  | Except.ok _ =>
      match db.election with
      | none => (db, Except.error ApiError.noElection)
      | some el =>
          let db1 : DB := { db with election := some { el with isOpen := false } }
          match auditWrite db1 auditOk
              { actor := u.email, actorId := some u.id, action := "election_closed",
                detailsReceipt := none, detailsTotalVotes := none } with
          | (db2, Except.error e) => (db2, Except.error e)
          | (db2, Except.ok _) => (db2, Except.ok "Election closed")

/-- POST /admin/results/publish (routes.js lines 222-239): with no
precondition of any kind, set `isPublished = true`, save, audit, answer. -/
def publishResults (db : DB) (u : User) (auditOk : Bool) : DB × Except ApiError String :=
  match adminGate u with
  | Except.error e => (db, Except.error e)
  | Except.ok _ =>
      match db.election with
      | none => (db, Except.error ApiError.noElection)
      | some el =>
          let db1 : DB := { db with election := some { el with isPublished := true } }
          match auditWrite db1 auditOk
              { actor := u.email, actorId := some u.id, action := "results_published",
                detailsReceipt := none, detailsTotalVotes := none } with
          | (db2, Except.error e) => (db2, Except.error e)
          | (db2, Except.ok _) => (db2, Except.ok "Results published")

/-- A plain string-keyed JavaScript object, as built by the tally loops with
`results[key] = value`: a partial map from property names to values. -/
abbrev ObjMap (α : Type) := String → Option α

/-- Property assignment `m[k] = v`: a later assignment shadows an earlier one
with the same key, other keys are untouched. -/
def objSet {α : Type} (m : ObjMap α) (k : String) (v : α) : ObjMap α :=
  fun q => if q = k then some v else m q

/-- The empty object literal. -/
def objEmpty {α : Type} : ObjMap α := fun _ => none

/-- Inner initialization loop of the tally
(`for candidate of contest.candidates: results[contest.id][candidate.id] = 0`). -/
def initContest (cands : List Candidate) : ObjMap Nat :=
  cands.foldl (fun m c => objSet m c.id 0) objEmpty

/-- Outer initialization loop of the tally
(`for contest of election.contests: results[contest.id] = {...zeros}`). -/
def initResults (contests : List Contest) : ObjMap (ObjMap Nat) :=
  contests.foldl (fun r c => objSet r c.id (initContest c.candidates)) objEmpty

/-- `if (results[s.contestId][cid] !== undefined) results[s.contestId][cid] += 1`:
increment the candidate's count when the key exists, otherwise do nothing. -/
def bumpCandidate (m : ObjMap Nat) (cid : String) : ObjMap Nat :=
  match m cid with
  | none => m
  | some n => objSet m cid (n + 1)

/-- One selection of one vote (routes.js lines 202-207): skip the selection
when its contestId is not a key of `results`, otherwise run the candidate
loop on the inner object. -/
def applySelection (r : ObjMap (ObjMap Nat)) (s : Selection) : ObjMap (ObjMap Nat) :=
  match r s.contestId with
  | none => r
  | some m => objSet r s.contestId (s.selectedCandidateIds.foldl bumpCandidate m)

/-- The per-vote loop body of the tally. -/
def applyVote (r : ObjMap (ObjMap Nat)) (v : AnonymousVote) : ObjMap (ObjMap Nat) :=
  v.selections.foldl applySelection r

/-- The counting loops of POST /admin/tally/run (routes.js lines 192-208). -/
def tallyCompute (contests : List Contest) (votes : List AnonymousVote) :
    ObjMap (ObjMap Nat) :=
  votes.foldl applyVote (initResults contests)

/-- The counting loops of GET /results/view (routes.js lines 263-279), a
textual duplicate of the admin tally loops. -/
def viewCompute (contests : List Contest) (votes : List AnonymousVote) :
    ObjMap (ObjMap Nat) :=
  votes.foldl (fun r v => v.selections.foldl applySelection r) (initResults contests)

/-- Reading a single count out of the nested results object:
`results[cid][k]`, absent keys giving `undefined`. -/
def resultLookup (r : ObjMap (ObjMap Nat)) (cid k : String) : Option Nat :=
  (r cid).bind (fun m => m k)

/-- POST /admin/tally/run (routes.js lines 184-219): admin only, read the
election and its votes, run the counting loops, audit with the vote count,
answer with the election id and the results object. -/
def runTally (db : DB) (u : User) (auditOk : Bool) :
    DB × Except ApiError (Nat × ObjMap (ObjMap Nat)) :=
  match adminGate u with
  | Except.error e => (db, Except.error e)
  | Except.ok _ =>
      match db.election with
      | none => (db, Except.error ApiError.noElection)
      | some el =>
          let votes := db.votes.filter (fun v => v.electionId == el.id)
          let results := tallyCompute el.contests votes
          match auditWrite db auditOk
              { actor := u.email, actorId := some u.id, action := "tally_run",
                detailsReceipt := none, detailsTotalVotes := some votes.length } with
          | (db1, Except.error e) => (db1, Except.error e)
          | (db1, Except.ok _) => (db1, Except.ok (el.id, results))

/-- GET /results/view (routes.js lines 257-285): no auth, 403 when the
election is not published, otherwise the duplicated counting loops over this
election's votes.  Reads only, so just the response is returned. -/
def viewResults (db : DB) : Except ApiError (Nat × ObjMap (ObjMap Nat)) :=
  match db.election with
  | none => Except.error ApiError.noElection
  | some el =>
      if el.isPublished then
        Except.ok (el.id, viewCompute el.contests (db.votes.filter (fun v => v.electionId == el.id)))
      else Except.error ApiError.notPublished

/-- The state-relevant operations of the system, one constructor per route. -/
inductive Op where
  | reqBallot (u : User) (now : Int) (auditOk : Bool)
  | subVote (u : User) (now : Int) (selections : List Selection) (receipt : String) (auditOk : Bool)
  | setupOp (u : User) (newId : Nat) (name : String) (startAt endAt : Int)
      (contests : List Contest) (auditOk : Bool)
  | openOp (u : User) (auditOk : Bool)
  | closeOp (u : User) (auditOk : Bool)
  | tallyOp (u : User) (auditOk : Bool)
  | publishOp (u : User) (auditOk : Bool)
  | viewOp

/-- The state transition of one request: run the route, keep the new state. -/
def step (db : DB) : Op → DB
  | Op.reqBallot u now aok => (requestBallot db u now aok).1
  | Op.subVote u now sel r aok => (submitVote db u now sel r aok).1
  | Op.setupOp u i n s e c aok => (setupElection db u i n s e c aok).1
  | Op.openOp u aok => (openElection db u aok).1
  | Op.closeOp u aok => (closeElection db u aok).1
  | Op.tallyOp u aok => (runTally db u aok).1
  | Op.publishOp u aok => (publishResults db u aok).1
  | Op.viewOp => db

/-- Reference validation modelled from the spec (§4.1, `validateSelections`):
every selection's `contestId` must exist in the election's contests, every
entry of `selectedCandidateIds` must be a known candidate id of that contest,
and the number of selected ids must not exceed the contest's `maxSelections`;
contests absent from the submission are abstentions, not errors. -/
def specValidateSelections (contests : List Contest) (sels : List Selection) : Bool :=
  sels.all (fun s =>
    match contests.find? (fun c => c.id == s.contestId) with
    | none => false
    | some c =>
        s.selectedCandidateIds.all (fun k => (c.candidates.map Candidate.id).contains k) &&
        s.selectedCandidateIds.length ≤ c.maxSelections)

/-- Reference tally modelled from the spec (§4.4, `TallyEngine.compute`): the
count of candidate `k` in contest `cid` is defined when `cid` is a contest of
the schema and `k` one of its candidates, and then equals the number of times
`k` is listed by a selection for `cid` across all votes. -/
def specTallyCount (contests : List Contest) (votes : List AnonymousVote)
    (cid k : String) : Option Nat :=
  match contests.find? (fun c => c.id == cid) with
  | none => none
  | some c =>
      if k ∈ c.candidates.map Candidate.id then
        some ((votes.map (fun v =>
          (v.selections.map (fun s =>
            if s.contestId = cid then s.selectedCandidateIds.count k else 0)).sum)).sum)
      else none

/-! ### Support lemmas about the tally loops -/

/-- The contribution of one vote to the count of candidate `k` in contest
`cid`: across the vote's selections for `cid`, the number of times `k` is
listed. -/
def contribVote (v : AnonymousVote) (cid k : String) : Nat :=
  (v.selections.map (fun s =>
    if s.contestId = cid then s.selectedCandidateIds.count k else 0)).sum

theorem objSet_apply {α : Type} (m : ObjMap α) (k : String) (v : α) (q : String) :
    objSet m k v q = if q = k then some v else m q := rfl

theorem bumpCandidate_apply (m : ObjMap Nat) (c k : String) :
    bumpCandidate m c k = (m k).map (fun n => n + if k = c then 1 else 0) := by
  unfold bumpCandidate
  cases h : m c with
  | none =>
      cases hk : m k with
      | none => simp [hk]
      | some n =>
          by_cases hkc : k = c
          · subst hkc; rw [h] at hk; cases hk
          · simp [hk, hkc]
  | some n =>
      by_cases hkc : k = c
      · subst hkc; simp [objSet_apply, h]
      · simp [objSet_apply, hkc]

theorem foldl_bump_apply (cids : List String) (m : ObjMap Nat) (k : String) :
    (cids.foldl bumpCandidate m) k = (m k).map (fun n => n + cids.count k) := by
  induction cids generalizing m with
  | nil => cases hk : m k <;> simp [hk]
  | cons c t ih =>
      rw [List.foldl_cons, ih, bumpCandidate_apply]
      cases hk : m k with
      | none => simp
      | some n =>
          simp only [Option.map_some', Option.some.injEq, List.count_cons]
          by_cases hkc : k = c
          · subst hkc; simp; omega
          · have hne : (c == k) = false := by
              refine beq_eq_false_iff_ne.mpr ?_
              exact fun hx => hkc hx.symm
            simp [hkc, hne]

theorem applySelection_lookup (r : ObjMap (ObjMap Nat)) (s : Selection) (cid k : String) :
    resultLookup (applySelection r s) cid k =
      (resultLookup r cid k).map (fun n =>
        n + if s.contestId = cid then s.selectedCandidateIds.count k else 0) := by
  unfold applySelection
  cases h : r s.contestId with
  | none =>
      by_cases hc : s.contestId = cid
      · subst hc; simp [resultLookup, h]
      · cases hcc : r cid with
        | none => simp [resultLookup, hcc]
        | some m =>
            cases hmk : m k with
            | none => simp [resultLookup, hcc, hmk, hc]
            | some n => simp [resultLookup, hcc, hmk, hc]
  | some m =>
      by_cases hc : s.contestId = cid
      · subst hc
        simp [resultLookup, objSet_apply, h, foldl_bump_apply]
      · have hcc : cid ≠ s.contestId := fun hx => hc hx.symm
        simp only [resultLookup, objSet_apply, if_neg hcc]
        cases hr : r cid with
        | none => simp
        | some m2 =>
            cases hmk : m2 k with
            | none => simp [hmk, hc]
            | some n => simp [hmk, hc]

theorem foldl_applySelection_lookup (sels : List Selection) (r : ObjMap (ObjMap Nat))
    (cid k : String) :
    resultLookup (sels.foldl applySelection r) cid k =
      (resultLookup r cid k).map (fun n =>
        n + (sels.map (fun s =>
          if s.contestId = cid then s.selectedCandidateIds.count k else 0)).sum) := by
  induction sels generalizing r with
  | nil => cases hr : resultLookup r cid k <;> simp [hr]
  | cons s t ih =>
      rw [List.foldl_cons, ih, applySelection_lookup]
      cases hr : resultLookup r cid k with
      | none => simp
      | some n => simp [Nat.add_assoc]

theorem applyVote_lookup (r : ObjMap (ObjMap Nat)) (v : AnonymousVote) (cid k : String) :
    resultLookup (applyVote r v) cid k =
      (resultLookup r cid k).map (fun n => n + contribVote v cid k) :=
  foldl_applySelection_lookup v.selections r cid k

theorem foldl_applyVote_lookup (votes : List AnonymousVote) (r : ObjMap (ObjMap Nat))
    (cid k : String) :
    resultLookup (votes.foldl applyVote r) cid k =
      (resultLookup r cid k).map (fun n =>
        n + (votes.map (fun v => contribVote v cid k)).sum) := by
  induction votes generalizing r with
  | nil => cases hr : resultLookup r cid k <;> simp [hr]
  | cons v t ih =>
      rw [List.foldl_cons, ih, applyVote_lookup]
      cases resultLookup r cid k with
      | none => simp
      | some n => simp [Nat.add_assoc]

theorem tally_lookup (contests : List Contest) (votes : List AnonymousVote) (cid k : String) :
    resultLookup (tallyCompute contests votes) cid k =
      (resultLookup (initResults contests) cid k).map (fun n =>
        n + (votes.map (fun v => contribVote v cid k)).sum) :=
  foldl_applyVote_lookup votes (initResults contests) cid k

theorem initContest_aux (cands : List Candidate) (b : ObjMap Nat) (k : String) :
    (cands.foldl (fun m c => objSet m c.id 0) b) k =
      if k ∈ cands.map Candidate.id then some 0 else b k := by
  induction cands generalizing b with
  | nil => simp
  | cons c t ih =>
      rw [List.foldl_cons, ih]
      by_cases ht : k ∈ t.map Candidate.id
      · simp [ht]
      · by_cases hkc : k = c.id
        · simp [ht, hkc, objSet_apply]
        · simp [ht, hkc, objSet_apply]

theorem initContest_apply (cands : List Candidate) (k : String) :
    initContest cands k = if k ∈ cands.map Candidate.id then some 0 else none := by
  rw [initContest, initContest_aux]
  rfl

theorem initResults_aux (l : List Contest) (b : ObjMap (ObjMap Nat)) (cid : String)
    (hnd : (l.map Contest.id).Nodup) :
    (l.foldl (fun r c => objSet r c.id (initContest c.candidates)) b) cid =
      match l.find? (fun c => c.id == cid) with
      | some c => some (initContest c.candidates)
      | none => b cid := by
  induction l generalizing b with
  | nil => simp
  | cons c t ih =>
      have hnd2 : ((c :: t).map Contest.id).Nodup := hnd
      rw [List.map_cons, List.nodup_cons] at hnd2
      rw [List.foldl_cons, ih _ hnd2.2]
      by_cases hc : c.id = cid
      · have ht : t.find? (fun x => x.id == cid) = none := by
          rw [List.find?_eq_none]
          intro x hx hbx
          rw [beq_iff_eq] at hbx
          exact hnd2.1 (by rw [hc, ← hbx] at hnd2 ⊢; exact List.mem_map_of_mem Contest.id hx)
        rw [ht, List.find?_cons_of_pos _ (by simp [hc])]
        simp [objSet_apply, hc.symm]
      · rw [List.find?_cons_of_neg _ (by simp [hc])]
        cases htf : t.find? (fun x => x.id == cid) with
        | some x => simp
        | none =>
            have hcc : cid ≠ c.id := fun hx => hc hx.symm
            simp [objSet_apply, hcc]

theorem initResults_lookup (contests : List Contest) (cid k : String)
    (hnd : (contests.map Contest.id).Nodup) :
    resultLookup (initResults contests) cid k =
      match contests.find? (fun c => c.id == cid) with
      | some c => if k ∈ c.candidates.map Candidate.id then some 0 else none
      | none => none := by
  rw [resultLookup, initResults, initResults_aux _ _ _ hnd]
  cases contests.find? (fun c => c.id == cid) with
  | none => rfl
  | some c => simp [initContest_apply]

theorem applySelection_none (r : ObjMap (ObjMap Nat)) (s : Selection) (cid : String) :
    (applySelection r s) cid = none ↔ r cid = none := by
  unfold applySelection
  cases h : r s.contestId with
  | none => exact Iff.rfl
  | some m =>
      by_cases hc : cid = s.contestId
      · subst hc
        simp [objSet_apply, h]
      · simp [objSet_apply, hc]

theorem foldl_applySelection_none (sels : List Selection) (r : ObjMap (ObjMap Nat))
    (cid : String) :
    (sels.foldl applySelection r) cid = none ↔ r cid = none := by
  induction sels generalizing r with
  | nil => exact Iff.rfl
  | cons s t ih => rw [List.foldl_cons, ih, applySelection_none]

theorem foldl_applyVote_none (votes : List AnonymousVote) (r : ObjMap (ObjMap Nat))
    (cid : String) :
    (votes.foldl applyVote r) cid = none ↔ r cid = none := by
  induction votes generalizing r with
  | nil => exact Iff.rfl
  | cons v t ih =>
      rw [List.foldl_cons, ih]
      exact foldl_applySelection_none v.selections r cid

theorem tally_none (contests : List Contest) (votes : List AnonymousVote) (cid : String) :
    (tallyCompute contests votes) cid = none ↔ (initResults contests) cid = none :=
  foldl_applyVote_none votes (initResults contests) cid

/-- The two counting-loop blocks in routes.js are textual duplicates, so their
embeddings agree definitionally. -/
theorem view_eq_tally : viewCompute = tallyCompute := rfl

/-- Claim C4: the tally computation of POST /admin/tally/run equals the
reference algorithm of the spec — every candidate of every contest starts at
a zero count, selections naming an unknown contest are skipped, and each
listed candidate id of a known contest increments that candidate's count by
one, unknown candidate ids being silently skipped.  The contest schema is
assumed to satisfy the data model's invariant that contest ids are unique
within the election. -/
theorem tally_matches_reference (contests : List Contest) (votes : List AnonymousVote)
    (cid k : String) (hnd : (contests.map Contest.id).Nodup) :
    resultLookup (tallyCompute contests votes) cid k =
      specTallyCount contests votes cid k := by
  rw [tally_lookup, initResults_lookup contests cid k hnd]
  unfold specTallyCount
  cases hf : contests.find? (fun c => c.id == cid) with
  | none => rfl
  | some c =>
      by_cases hk : k ∈ c.candidates.map Candidate.id
      · simp [hk, contribVote]
      · simp [hk]

/-- Concrete schema used by the tally witnesses: one contest C1 with
candidates A and B, maxSelections 1. -/
def wC1 : Contest :=
  { id := "C1", title := "t", maxSelections := 1,
    candidates := [{ id := "A", name := "a" }, { id := "B", name := "b" }] }

def wContests : List Contest := [wC1]

def wVotes : List AnonymousVote :=
  [{ electionId := 1, selections := [{ contestId := "C1", selectedCandidateIds := ["A"] }],
     submittedAt := 10, receipt := "r1" },
   { electionId := 1, selections := [{ contestId := "C1", selectedCandidateIds := ["B"] }],
     submittedAt := 11, receipt := "r2" }]

theorem tally_matches_reference_witness :
    (wContests.map Contest.id).Nodup ∧
      resultLookup (tallyCompute wContests wVotes) "C1" "A" =
        specTallyCount wContests wVotes "C1" "A" :=
  ⟨by decide, tally_matches_reference wContests wVotes "C1" "A" (by decide)⟩

/-- Claim C5: for every election schema and every list of AnonymousVote
records, the computed tally object is invariant under permutation of the
input vote sequence. -/
theorem tally_perm_invariant (contests : List Contest) (v1 v2 : List AnonymousVote)
    (h : v1.Perm v2) :
    tallyCompute contests v1 = tallyCompute contests v2 := by
  funext cid
  cases h0 : initResults contests cid with
  | none =>
      rw [(tally_none contests v1 cid).mpr h0, (tally_none contests v2 cid).mpr h0]
  | some m0 =>
      have h1 : (tallyCompute contests v1) cid ≠ none := by
        rw [Ne, tally_none, h0]; simp
      have h2 : (tallyCompute contests v2) cid ≠ none := by
        rw [Ne, tally_none, h0]; simp
      obtain ⟨m1, hm1⟩ := Option.ne_none_iff_exists'.mp h1
      obtain ⟨m2, hm2⟩ := Option.ne_none_iff_exists'.mp h2
      rw [hm1, hm2]
      congr 1
      funext k
      have l1 : resultLookup (tallyCompute contests v1) cid k = m1 k := by
        rw [resultLookup, hm1]; rfl
      have l2 : resultLookup (tallyCompute contests v2) cid k = m2 k := by
        rw [resultLookup, hm2]; rfl
      have hs : (v1.map (fun v => contribVote v cid k)).sum
          = (v2.map (fun v => contribVote v cid k)).sum :=
        (h.map (fun v => contribVote v cid k)).sum_eq
      rw [← l1, ← l2, tally_lookup, tally_lookup, hs]

theorem tally_perm_invariant_witness :
    wVotes.Perm wVotes.reverse ∧
      tallyCompute wContests wVotes = tallyCompute wContests wVotes.reverse :=
  ⟨by decide, tally_perm_invariant wContests wVotes wVotes.reverse (by decide)⟩

/-- Claim C10: neither counting loop deduplicates candidate ids inside one
selection — a vote whose selection lists a known candidate id n times adds n
to that candidate's count, in the admin tally and in the public results view
alike. -/
theorem tally_counts_duplicates (contests : List Contest) (votes : List AnonymousVote)
    (c : Contest) (cid k : String) (n eid : Nat) (t0 : Int) (rcpt : String)
    (hnd : (contests.map Contest.id).Nodup)
    (hc : contests.find? (fun x => x.id == cid) = some c)
    (hk : k ∈ c.candidates.map Candidate.id) :
    ∃ m : Nat,
      resultLookup (tallyCompute contests votes) cid k = some m ∧
      resultLookup (tallyCompute contests (votes ++
        [{ electionId := eid,
           selections := [{ contestId := cid, selectedCandidateIds := List.replicate n k }],
           submittedAt := t0, receipt := rcpt }])) cid k = some (m + n) ∧
      resultLookup (viewCompute contests (votes ++
        [{ electionId := eid,
           selections := [{ contestId := cid, selectedCandidateIds := List.replicate n k }],
           submittedAt := t0, receipt := rcpt }])) cid k = some (m + n) := by
  have hbase : resultLookup (initResults contests) cid k = some 0 := by
    rw [initResults_lookup contests cid k hnd, hc]
    simp [hk]
  have hcon : contribVote
      { electionId := eid,
        selections := [{ contestId := cid, selectedCandidateIds := List.replicate n k }],
        submittedAt := t0, receipt := rcpt } cid k = n := by
    simp [contribVote]
  refine ⟨(votes.map (fun v => contribVote v cid k)).sum, ?_, ?_, ?_⟩
  · rw [tally_lookup, hbase]; simp
  · rw [tally_lookup, hbase]
    simp [hcon]
  · rw [view_eq_tally, tally_lookup, hbase]
    simp [hcon]

theorem tally_counts_duplicates_witness :
    ((wContests.map Contest.id).Nodup ∧
     wContests.find? (fun x => x.id == "C1") = some wC1 ∧
     "A" ∈ wC1.candidates.map Candidate.id) ∧
    ∃ m : Nat,
      resultLookup (tallyCompute wContests []) "C1" "A" = some m ∧
      resultLookup (tallyCompute wContests
        [{ electionId := 1,
           selections := [{ contestId := "C1", selectedCandidateIds := List.replicate 3 "A" }],
           submittedAt := 5, receipt := "r" }]) "C1" "A" = some (m + 3) ∧
      resultLookup (viewCompute wContests
        [{ electionId := 1,
           selections := [{ contestId := "C1", selectedCandidateIds := List.replicate 3 "A" }],
           submittedAt := 5, receipt := "r" }]) "C1" "A" = some (m + 3) :=
  by
  refine ⟨⟨by decide, by decide, by decide⟩, ?_⟩
  exact tally_counts_duplicates wContests [] wC1 "C1" "A" 3 1 5 "r" (by decide) (by decide) (by decide)


/-! ### Eligibility window and ballot idempotence -/

/-- On a configured election the open gate is exactly the window test. -/
theorem electionOpen_some (db : DB) (now : Int) (el : Election)
    (hel : db.election = some el) :
    electionOpen db now =
      if el.isOpen = false ∨ now < el.startAt ∨ el.endAt < now then
        Except.error ApiError.notEligible
      else Except.ok el := by
  unfold electionOpen
  rw [hel]

theorem electionOpen_ok_of (db : DB) (now : Int) (el : Election)
    (hel : db.election = some el) (hopen : el.isOpen = true)
    (ha : el.startAt ≤ now) (hb : now ≤ el.endAt) :
    electionOpen db now = Except.ok el := by
  rw [electionOpen_some db now el hel, if_neg]
  rintro (hc | hc | hc)
  · rw [hopen] at hc; cases hc
  · omega
  · omega

theorem electionOpen_notEligible_of (db : DB) (now : Int) (el : Election)
    (hel : db.election = some el) (hwin : now < el.startAt ∨ el.endAt < now) :
    electionOpen db now = Except.error ApiError.notEligible := by
  rw [electionOpen_some db now el hel, if_pos (Or.inr hwin)]

theorem electionOpen_ok_iff (db : DB) (now : Int) (el : Election) :
    electionOpen db now = Except.ok el ↔
      db.election = some el ∧ el.isOpen = true ∧ el.startAt ≤ now ∧ now ≤ el.endAt := by
  constructor
  · intro hx
    cases hdb : db.election with
    | none =>
        unfold electionOpen at hx
        rw [hdb] at hx
        cases hx
    | some e =>
        rw [electionOpen_some db now e hdb] at hx
        by_cases hcond : e.isOpen = false ∨ now < e.startAt ∨ e.endAt < now
        · rw [if_pos hcond] at hx; cases hx
        · rw [if_neg hcond] at hx
          injection hx with hx
          subst hx
          push_neg at hcond
          obtain ⟨hA, hB, hC⟩ := hcond
          refine ⟨rfl, ?_, by omega, by omega⟩
          cases hop : e.isOpen
          · exact absurd hop hA
          · rfl
  · rintro ⟨hdb, hopen, hw1, hw2⟩
    exact electionOpen_ok_of db now el hdb hopen hw1 hw2

/-- Claim C6: the election-open gate accepts exactly when `isOpen` holds and
`startAt ≤ now ≤ endAt` with inclusive bounds; consequently an election whose
window excludes `now` rejects both ballot requests and vote submissions with
the not-eligible error even when `isOpen` is true. -/
theorem eligibility_window (db : DB) (now : Int) (el : Election) :
    (electionOpen db now = Except.ok el ↔
      db.election = some el ∧ el.isOpen = true ∧ el.startAt ≤ now ∧ now ≤ el.endAt) ∧
    (∀ (u : User) (sel : List Selection) (rcpt : String),
      db.election = some el → el.isOpen = true → (now < el.startAt ∨ el.endAt < now) →
      requestBallot db u now true = (db, Except.error ApiError.notEligible) ∧
      submitVote db u now sel rcpt true = (db, Except.error ApiError.notEligible)) := by
  refine ⟨electionOpen_ok_iff db now el, ?_⟩
  intro u sel rcpt hdb hopen hwin
  have hoe : electionOpen db now = Except.error ApiError.notEligible :=
    electionOpen_notEligible_of db now el hdb hwin
  constructor
  · unfold requestBallot
    rw [hoe]
  · unfold submitVote
    rw [hoe]

/-- Concrete election and state used by witnesses: open, window 0..100. -/
def wEl : Election :=
  { id := 1, name := "E1", startAt := 0, endAt := 100, isOpen := true,
    isPublished := false, contests := wContests }

def wDB : DB := { election := some wEl, assignments := [], votes := [], auditLog := [] }

def wVoter : User := { id := 7, email := "v1@example.com", role := "voter" }

theorem eligibility_window_witness :
    electionOpen wDB 50 = Except.ok wEl ∧
    requestBallot wDB wVoter 200 true = (wDB, Except.error ApiError.notEligible) :=
  ⟨(eligibility_window wDB 50 wEl).1.mpr ⟨rfl, rfl, by decide, by decide⟩,
   ((eligibility_window wDB 200 wEl).2 wVoter [] "r" rfl rfl (Or.inr (by decide))).1⟩

/-- Claim C7: a first eligible ballot request creates the assignment with
`issuedAt` set and `votedAt` null, and a second request before voting hands
back that identical stored assignment without creating a new record. -/
theorem requestBallot_idempotent (db : DB) (u : User) (now now2 : Int) (el : Election)
    (hel : db.election = some el) (hopen : el.isOpen = true)
    (h1 : el.startAt ≤ now) (h2 : now ≤ el.endAt)
    (h3 : el.startAt ≤ now2) (h4 : now2 ≤ el.endAt)
    (hnone : findAssignment db.assignments u.id el.id = none) :
    ∃ db1 db2 : DB,
      requestBallot db u now true =
        (db1, Except.ok { electionId := el.id, name := el.name, contests := el.contests }) ∧
      db1.assignments = db.assignments ++
        [{ voterId := u.id, electionId := el.id, issuedAt := now, votedAt := none }] ∧
      oneBallotOnly db1 u.id el.id now2 =
        (db1, Except.ok { voterId := u.id, electionId := el.id, issuedAt := now, votedAt := none }) ∧
      requestBallot db1 u now2 true =
        (db2, Except.ok { electionId := el.id, name := el.name, contests := el.contests }) ∧
      db2.assignments = db1.assignments := by
  have hoe1 : electionOpen db now = Except.ok el :=
    electionOpen_ok_of db now el hel hopen h1 h2
  have hob1 : oneBallotOnly db u.id el.id now =
      ({ db with
          assignments := db.assignments ++
            [{ voterId := u.id, electionId := el.id, issuedAt := now, votedAt := none }] },
        Except.ok { voterId := u.id, electionId := el.id, issuedAt := now, votedAt := none }) := by
    unfold oneBallotOnly
    rw [hnone]
  have hreq1 : requestBallot db u now true =
      ({ db with
          assignments := db.assignments ++
            [{ voterId := u.id, electionId := el.id, issuedAt := now, votedAt := none }],
          auditLog := db.auditLog ++
            [{ actor := u.email, actorId := some u.id, action := "ballot_requested",
               detailsReceipt := none, detailsTotalVotes := none }] },
        Except.ok { electionId := el.id, name := el.name, contests := el.contests }) := by
    simp only [requestBallot, hoe1, hob1, auditWrite, if_true]
  have hoe2 : electionOpen
      { db with
          assignments := db.assignments ++
            [{ voterId := u.id, electionId := el.id, issuedAt := now, votedAt := none }],
          auditLog := db.auditLog ++
            [{ actor := u.email, actorId := some u.id, action := "ballot_requested",
               detailsReceipt := none, detailsTotalVotes := none }] } now2 = Except.ok el :=
    electionOpen_ok_of _ now2 el hel hopen h3 h4
  have hfind2 : findAssignment (db.assignments ++
      [{ voterId := u.id, electionId := el.id, issuedAt := now, votedAt := none }]) u.id el.id =
      some { voterId := u.id, electionId := el.id, issuedAt := now, votedAt := none } := by
    unfold findAssignment at hnone ⊢
    rw [List.find?_append, hnone]
    simp
  have hob2 : oneBallotOnly
      { db with
          assignments := db.assignments ++
            [{ voterId := u.id, electionId := el.id, issuedAt := now, votedAt := none }],
          auditLog := db.auditLog ++
            [{ actor := u.email, actorId := some u.id, action := "ballot_requested",
               detailsReceipt := none, detailsTotalVotes := none }] } u.id el.id now2 =
      ({ db with
          assignments := db.assignments ++
            [{ voterId := u.id, electionId := el.id, issuedAt := now, votedAt := none }],
          auditLog := db.auditLog ++
            [{ actor := u.email, actorId := some u.id, action := "ballot_requested",
               detailsReceipt := none, detailsTotalVotes := none }] },
        Except.ok { voterId := u.id, electionId := el.id, issuedAt := now, votedAt := none }) := by
    unfold oneBallotOnly
    rw [hfind2]
    rfl
  refine ⟨_,
    { db with
        assignments := db.assignments ++
          [{ voterId := u.id, electionId := el.id, issuedAt := now, votedAt := none }],
        auditLog := (db.auditLog ++
          [{ actor := u.email, actorId := some u.id, action := "ballot_requested",
             detailsReceipt := none, detailsTotalVotes := none }]) ++
          [{ actor := u.email, actorId := some u.id, action := "ballot_requested",
             detailsReceipt := none, detailsTotalVotes := none }] },
    hreq1, rfl, hob2, ?_, rfl⟩
  simp only [requestBallot, hoe2, hob2, auditWrite, if_true]

theorem requestBallot_idempotent_witness :
    ∃ db1 db2 : DB,
      requestBallot wDB wVoter 10 true =
        (db1, Except.ok { electionId := wEl.id, name := wEl.name, contests := wEl.contests }) ∧
      db1.assignments = wDB.assignments ++
        [{ voterId := wVoter.id, electionId := wEl.id, issuedAt := 10, votedAt := none }] ∧
      oneBallotOnly db1 wVoter.id wEl.id 20 =
        (db1, Except.ok { voterId := wVoter.id, electionId := wEl.id, issuedAt := 10, votedAt := none }) ∧
      requestBallot db1 wVoter 20 true =
        (db2, Except.ok { electionId := wEl.id, name := wEl.name, contests := wEl.contests }) ∧
      db2.assignments = db1.assignments :=
  requestBallot_idempotent wDB wVoter 10 20 wEl rfl rfl (by decide) (by decide)
    (by decide) (by decide) rfl

/-! ### Validation, anonymity, publication, audit propagation -/

/-- Claim C2 (code bug): POST /vote/submit performs no selection validation.
A submission whose first selection exceeds the contest's maxSelections and
whose second selection names a contest that does not exist is rejected by the
spec's validateSelections, yet the route accepts it, stores it verbatim as an
AnonymousVote, and answers with a receipt. -/
theorem submitVote_skips_validation :
    specValidateSelections wEl.contests
      [⟨"C1", ["A", "B"]⟩, ⟨"ZZZ", ["X"]⟩] = false ∧
    (submitVote wDB wVoter 10 [⟨"C1", ["A", "B"]⟩, ⟨"ZZZ", ["X"]⟩] "r9" true).2 =
      Except.ok { message := "Vote submitted", receipt := "r9" } ∧
    (submitVote wDB wVoter 10 [⟨"C1", ["A", "B"]⟩, ⟨"ZZZ", ["X"]⟩] "r9" true).1.votes =
      [{ electionId := 1, selections := [⟨"C1", ["A", "B"]⟩, ⟨"ZZZ", ["X"]⟩],
         submittedAt := 10, receipt := "r9" }] :=
  ⟨by decide, rfl, rfl⟩

/-- Claim C3 (code bug): the vote-submission handler persists an AuditLog
entry that carries the voter's email, the voter's id, and the submission
receipt — the very token that keys the stored AnonymousVote — so the
persisted state does link voter identity to the vote through the audit log,
even though the AnonymousVote record itself holds no voter identity. -/
theorem audit_links_receipt_to_voter :
    (submitVote wDB wVoter 10 [⟨"C1", ["A"]⟩] "r1" true).1.auditLog =
      [{ actor := "v1@example.com", actorId := some 7, action := "vote_submitted",
         detailsReceipt := some "r1", detailsTotalVotes := none }] ∧
    (submitVote wDB wVoter 10 [⟨"C1", ["A"]⟩] "r1" true).1.votes =
      [{ electionId := 1, selections := [⟨"C1", ["A"]⟩],
         submittedAt := 10, receipt := "r1" }] :=
  ⟨by decide, by decide⟩

def wAdmin : User := { id := 9, email := "admin@example.com", role := "admin" }

/-- Claim C8 counterexample: on an election that is still open, with an empty
audit log (so no tally was ever run), POST /admin/results/publish succeeds
and flips isPublished to true instead of failing with a precondition error
and leaving it false. -/
theorem publish_no_precondition_cex :
    wEl.isOpen = true ∧ wDB.auditLog = [] ∧
    (publishResults wDB wAdmin true).2 = Except.ok "Results published" ∧
    (publishResults wDB wAdmin true).1.election =
      some { wEl with isPublished := true } :=
  ⟨rfl, rfl, rfl, rfl⟩

/-- Claim C8 amended: publishResults checks nothing beyond the admin role and
the existence of a configured election: it unconditionally sets isPublished
to true and succeeds, regardless of the election being open or closed and of
whether any tally has ever been computed. -/
theorem publish_unconditional (db : DB) (u : User) (el : Election)
    (hadm : u.role = "admin") (hel : db.election = some el) :
    publishResults db u true =
      ({ db with
          election := some { el with isPublished := true },
          auditLog := db.auditLog ++
            [{ actor := u.email, actorId := some u.id, action := "results_published",
               detailsReceipt := none, detailsTotalVotes := none }] },
        Except.ok "Results published") := by
  simp only [publishResults, adminGate, hadm, beq_self_eq_true, if_true, hel, auditWrite]

theorem publish_unconditional_witness :
    publishResults wDB wAdmin true =
      ({ wDB with
          election := some { wEl with isPublished := true },
          auditLog := wDB.auditLog ++
            [{ actor := wAdmin.email, actorId := some wAdmin.id, action := "results_published",
               detailsReceipt := none, detailsTotalVotes := none }] },
        Except.ok "Results published") :=
  publish_unconditional wDB wAdmin wEl rfl rfl

/-- Claim C9 counterexample: the same eligible ballot request succeeds when
the audit write succeeds and fails when the audit write fails, so the
operation's result is not independent of the audit outcome. -/
theorem audit_failure_changes_result_cex :
    (requestBallot wDB wVoter 10 true).2 =
      Except.ok { electionId := 1, name := "E1", contests := wContests } ∧
    (requestBallot wDB wVoter 10 false).2 = Except.error ApiError.auditWriteFailed ∧
    (requestBallot wDB wVoter 10 true).2 ≠ (requestBallot wDB wVoter 10 false).2 :=
  ⟨rfl, rfl, by
    intro h
    rw [show (requestBallot wDB wVoter 10 true).2 =
        Except.ok { electionId := 1, name := "E1", contests := wContests } from rfl,
      show (requestBallot wDB wVoter 10 false).2 =
        Except.error ApiError.auditWriteFailed from rfl] at h
    cases h⟩

/-- Claim C9 amended: every AuditLog.create is awaited, so an audit-write
failure propagates as the operation's error instead of being discarded.  A
vote submission that would otherwise succeed still persists the AnonymousVote
and the votedAt mark (both precede the audit write) but returns the audit
error instead of the receipt; a ballot request that would otherwise succeed
fails with the audit error after the assignment lookup or creation; a publish
that would otherwise succeed still sets isPublished but fails. -/
theorem audit_failure_propagates (db : DB) (u : User) (now : Int)
    (sel : List Selection) (rcpt : String) :
    (∀ db1 resp, submitVote db u now sel rcpt true = (db1, Except.ok resp) →
      ∃ db2, submitVote db u now sel rcpt false =
          (db2, Except.error ApiError.auditWriteFailed) ∧
        db2.votes = db1.votes ∧ db2.assignments = db1.assignments ∧
        db2.election = db1.election) ∧
    (∀ db1 resp, requestBallot db u now true = (db1, Except.ok resp) →
      ∃ db2, requestBallot db u now false =
          (db2, Except.error ApiError.auditWriteFailed) ∧
        db2.assignments = db1.assignments ∧ db2.votes = db1.votes ∧
        db2.election = db1.election) ∧
    (∀ db1 resp, publishResults db u true = (db1, Except.ok resp) →
      ∃ db2, publishResults db u false =
          (db2, Except.error ApiError.auditWriteFailed) ∧
        db2.election = db1.election ∧ db2.votes = db1.votes ∧
        db2.assignments = db1.assignments) := by
  refine ⟨?_, ?_, ?_⟩
  · intro db1 resp hsucc
    cases hoe : electionOpen db now with
    | error e =>
        simp only [submitVote, hoe] at hsucc
        simp at hsucc
    | ok el =>
        rcases hob : oneBallotOnly db u.id el.id now with ⟨dbA, res⟩
        cases res with
        | error e =>
            simp only [submitVote, hoe, hob] at hsucc
            simp at hsucc
        | ok a =>
            simp only [submitVote, hoe, hob, auditWrite, if_true] at hsucc
            simp only [submitVote, hoe, hob, auditWrite, Bool.false_eq_true, if_false]
            simp only [Prod.mk.injEq] at hsucc
            obtain ⟨hdb1, hresp⟩ := hsucc
            subst hdb1
            exact ⟨_, rfl, rfl, rfl, rfl⟩
  · intro db1 resp hsucc
    cases hoe : electionOpen db now with
    | error e =>
        simp only [requestBallot, hoe] at hsucc
        simp at hsucc
    | ok el =>
        rcases hob : oneBallotOnly db u.id el.id now with ⟨dbA, res⟩
        cases res with
        | error e =>
            simp only [requestBallot, hoe, hob] at hsucc
            simp at hsucc
        | ok a =>
            simp only [requestBallot, hoe, hob, auditWrite, if_true] at hsucc
            simp only [requestBallot, hoe, hob, auditWrite, Bool.false_eq_true, if_false]
            simp only [Prod.mk.injEq] at hsucc
            obtain ⟨hdb1, hresp⟩ := hsucc
            subst hdb1
            exact ⟨_, rfl, rfl, rfl, rfl⟩
  · intro db1 resp hsucc
    cases hadm : adminGate u with
    | error e =>
        simp only [publishResults, hadm] at hsucc
        simp at hsucc
    | ok x =>
        cases hel : db.election with
        | none =>
            simp only [publishResults, hadm, hel] at hsucc
            simp at hsucc
        | some el =>
            simp only [publishResults, hadm, hel, auditWrite, if_true] at hsucc
            simp only [publishResults, hadm, hel, auditWrite, Bool.false_eq_true, if_false]
            simp only [Prod.mk.injEq] at hsucc
            obtain ⟨hdb1, hresp⟩ := hsucc
            subst hdb1
            exact ⟨_, rfl, rfl, rfl, rfl⟩

theorem audit_failure_propagates_witness :
    ∃ db2, requestBallot wDB wVoter 10 false =
        (db2, Except.error ApiError.auditWriteFailed) ∧
      db2.assignments = (requestBallot wDB wVoter 10 true).1.assignments ∧
      db2.votes = (requestBallot wDB wVoter 10 true).1.votes ∧
      db2.election = (requestBallot wDB wVoter 10 true).1.election :=
  (audit_failure_propagates wDB wVoter 10 [] "r").2.1
    (requestBallot wDB wVoter 10 true).1
    { electionId := wEl.id, name := wEl.name, contests := wEl.contests } rfl

/-! ### One vote per assignment: support lemmas -/

theorem findAssignment_append (l l2 : List BallotAssignment) (v e : Nat)
    (a : BallotAssignment) (h : findAssignment l v e = some a) :
    findAssignment (l ++ l2) v e = some a := by
  unfold findAssignment at h ⊢
  rw [List.find?_append, h]
  rfl

theorem findAssignment_append_self (l : List BallotAssignment) (v e : Nat)
    (b : BallotAssignment) (hnone : findAssignment l v e = none)
    (h1 : b.voterId = v) (h2 : b.electionId = e) :
    findAssignment (l ++ [b]) v e = some b := by
  unfold findAssignment at hnone ⊢
  rw [List.find?_append, hnone]
  simp [h1, h2]

theorem markVoted_key (b : BallotAssignment) (v2 e2 : Nat) (t2 : Int) :
    (if b.voterId == v2 && b.electionId == e2 then { b with votedAt := some t2 } else b :
      BallotAssignment).voterId = b.voterId ∧
    (if b.voterId == v2 && b.electionId == e2 then { b with votedAt := some t2 } else b :
      BallotAssignment).electionId = b.electionId := by
  by_cases h : (b.voterId == v2 && b.electionId == e2) = true
  · simp [h]
  · simp [h]

theorem findAssignment_markVoted (l : List BallotAssignment) (v e v2 e2 : Nat) (t2 : Int) :
    findAssignment (markVoted l v2 e2 t2) v e =
      (findAssignment l v e).map (fun a =>
        if a.voterId == v2 && a.electionId == e2 then { a with votedAt := some t2 }
        else a) := by
  unfold findAssignment markVoted
  induction l with
  | nil => rfl
  | cons b t ih =>
      rw [List.map_cons, List.find?_cons, List.find?_cons,
        (markVoted_key b v2 e2 t2).1, (markVoted_key b v2 e2 t2).2]
      cases hc : (b.voterId == v && b.electionId == e) with
      | true => rfl
      | false => exact ih

theorem setup_assignments (db : DB) (u : User) (i : Nat) (n : String) (s en : Int)
    (c : List Contest) (aok : Bool) :
    (setupElection db u i n s en c aok).1.assignments = db.assignments := by
  unfold setupElection auditWrite
  cases adminGate u with
  | error er => rfl
  | ok x => cases aok <;> rfl

theorem open_assignments (db : DB) (u : User) (aok : Bool) :
    (openElection db u aok).1.assignments = db.assignments := by
  unfold openElection auditWrite
  cases adminGate u with
  | error er => rfl
  | ok x =>
      cases db.election with
      | none => rfl
      | some el => cases aok <;> rfl

theorem close_assignments (db : DB) (u : User) (aok : Bool) :
    (closeElection db u aok).1.assignments = db.assignments := by
  unfold closeElection auditWrite
  cases adminGate u with
  | error er => rfl
  | ok x =>
      cases db.election with
      | none => rfl
      | some el => cases aok <;> rfl

theorem publish_assignments (db : DB) (u : User) (aok : Bool) :
    (publishResults db u aok).1.assignments = db.assignments := by
  unfold publishResults auditWrite
  cases adminGate u with
  | error er => rfl
  | ok x =>
      cases db.election with
      | none => rfl
      | some el => cases aok <;> rfl

theorem tally_assignments (db : DB) (u : User) (aok : Bool) :
    (runTally db u aok).1.assignments = db.assignments := by
  unfold runTally auditWrite
  cases adminGate u with
  | error er => rfl
  | ok x =>
      cases db.election with
      | none => rfl
      | some el => cases aok <;> rfl

theorem requestBallot_assignments_cases (db : DB) (u : User) (now : Int) (aok : Bool) :
    (requestBallot db u now aok).1.assignments = db.assignments ∨
    ∃ b : BallotAssignment,
      (requestBallot db u now aok).1.assignments = db.assignments ++ [b] := by
  cases hoe : electionOpen db now with
  | error e2 =>
      left
      simp only [requestBallot, hoe]
  | ok el =>
      cases hfa : findAssignment db.assignments u.id el.id with
      | some a0 =>
          left
          cases hv0 : a0.votedAt with
          | some t0 =>
              have hob : oneBallotOnly db u.id el.id now =
                  (db, Except.error ApiError.alreadyVoted) := by
                simp [oneBallotOnly, hfa, hv0]
              simp only [requestBallot, hoe, hob]
          | none =>
              have hob : oneBallotOnly db u.id el.id now = (db, Except.ok a0) := by
                simp [oneBallotOnly, hfa, hv0]
              cases aok
              · simp only [requestBallot, hoe, hob, auditWrite, Bool.false_eq_true, if_false]
              · simp only [requestBallot, hoe, hob, auditWrite, if_true]
      | none =>
          right
          refine ⟨{ voterId := u.id, electionId := el.id, issuedAt := now, votedAt := none }, ?_⟩
          have hob : oneBallotOnly db u.id el.id now =
              ({ db with assignments := db.assignments ++
                  [{ voterId := u.id, electionId := el.id, issuedAt := now, votedAt := none }] },
                Except.ok { voterId := u.id, electionId := el.id, issuedAt := now, votedAt := none }) := by
            unfold oneBallotOnly
            rw [hfa]
          cases aok
          · simp only [requestBallot, hoe, hob, auditWrite, Bool.false_eq_true, if_false]
          · simp only [requestBallot, hoe, hob, auditWrite, if_true]

theorem submitVote_assignments_cases (db : DB) (u : User) (now : Int)
    (sel : List Selection) (rcpt : String) (aok : Bool) :
    (submitVote db u now sel rcpt aok).1.assignments = db.assignments ∨
    (∃ el : Election, electionOpen db now = Except.ok el ∧
      findAssignment db.assignments u.id el.id = none ∧
      (submitVote db u now sel rcpt aok).1.assignments =
        markVoted (db.assignments ++
          [{ voterId := u.id, electionId := el.id, issuedAt := now, votedAt := none }])
          u.id el.id now) ∨
    (∃ el : Election, ∃ a0 : BallotAssignment, electionOpen db now = Except.ok el ∧
      findAssignment db.assignments u.id el.id = some a0 ∧ a0.votedAt = none ∧
      (submitVote db u now sel rcpt aok).1.assignments =
        markVoted db.assignments u.id el.id now) := by
  cases hoe : electionOpen db now with
  | error e2 =>
      left
      simp only [submitVote, hoe]
  | ok el =>
      cases hfa : findAssignment db.assignments u.id el.id with
      | some a0 =>
          cases hv0 : a0.votedAt with
          | some t0 =>
              left
              have hob : oneBallotOnly db u.id el.id now =
                  (db, Except.error ApiError.alreadyVoted) := by
                simp [oneBallotOnly, hfa, hv0]
              simp only [submitVote, hoe, hob]
          | none =>
              right; right
              refine ⟨el, a0, rfl, hfa, hv0, ?_⟩
              have hob : oneBallotOnly db u.id el.id now = (db, Except.ok a0) := by
                simp [oneBallotOnly, hfa, hv0]
              cases aok
              · simp only [submitVote, hoe, hob, auditWrite, Bool.false_eq_true, if_false]
              · simp only [submitVote, hoe, hob, auditWrite, if_true]
      | none =>
          right; left
          refine ⟨el, rfl, hfa, ?_⟩
          have hob : oneBallotOnly db u.id el.id now =
              ({ db with assignments := db.assignments ++
                  [{ voterId := u.id, electionId := el.id, issuedAt := now, votedAt := none }] },
                Except.ok { voterId := u.id, electionId := el.id, issuedAt := now, votedAt := none }) := by
            unfold oneBallotOnly
            rw [hfa]
          cases aok
          · simp only [submitVote, hoe, hob, auditWrite, Bool.false_eq_true, if_false]
          · simp only [submitVote, hoe, hob, auditWrite, if_true]

theorem submitVote_rejected_of_voted (db : DB) (u : User) (now : Int)
    (sel : List Selection) (rcpt : String) (aok : Bool) (el : Election)
    (a : BallotAssignment)
    (hoe : electionOpen db now = Except.ok el)
    (hfind : findAssignment db.assignments u.id el.id = some a)
    (hv : a.votedAt.isSome = true) :
    submitVote db u now sel rcpt aok = (db, Except.error ApiError.alreadyVoted) := by
  have hob : oneBallotOnly db u.id el.id now = (db, Except.error ApiError.alreadyVoted) := by
    simp [oneBallotOnly, hfind, hv]
  simp only [submitVote, hoe, hob]

theorem votedAt_preserved_step (db : DB) (op : Op) (v e : Nat) (a : BallotAssignment)
    (t : Int) (hfind : findAssignment db.assignments v e = some a)
    (hv : a.votedAt = some t) :
    ∃ a2, findAssignment (step db op).assignments v e = some a2 ∧
      a2.votedAt = some t := by
  have hpa : a.voterId = v ∧ a.electionId = e := by
    have h0 := List.find?_some hfind
    simpa [Bool.and_eq_true, beq_iff_eq] using h0
  cases op with
  | viewOp => exact ⟨a, hfind, hv⟩
  | setupOp u i n s en c aok =>
      refine ⟨a, ?_, hv⟩
      simp only [step, setup_assignments]
      exact hfind
  | openOp u aok =>
      refine ⟨a, ?_, hv⟩
      simp only [step, open_assignments]
      exact hfind
  | closeOp u aok =>
      refine ⟨a, ?_, hv⟩
      simp only [step, close_assignments]
      exact hfind
  | publishOp u aok =>
      refine ⟨a, ?_, hv⟩
      simp only [step, publish_assignments]
      exact hfind
  | tallyOp u aok =>
      refine ⟨a, ?_, hv⟩
      simp only [step, tally_assignments]
      exact hfind
  | reqBallot u now aok =>
      rcases requestBallot_assignments_cases db u now aok with h | ⟨b, h⟩
      · refine ⟨a, ?_, hv⟩
        simp only [step, h]
        exact hfind
      · refine ⟨a, ?_, hv⟩
        simp only [step, h]
        exact findAssignment_append _ _ _ _ _ hfind
  | subVote u now sel rcpt aok =>
      rcases submitVote_assignments_cases db u now sel rcpt aok with
        h | ⟨el, hoe, hnone, h⟩ | ⟨el, a0, hoe, hfa0, hv0, h⟩
      · refine ⟨a, ?_, hv⟩
        simp only [step, h]
        exact hfind
      · have hkey : (a.voterId == u.id && a.electionId == el.id) = false := by
          by_contra hx
          have hx2 : (a.voterId == u.id && a.electionId == el.id) = true := by
            cases hxx : (a.voterId == u.id && a.electionId == el.id)
            · exact absurd hxx hx
            · rfl
          have heq : a.voterId = u.id ∧ a.electionId = el.id := by
            simpa [Bool.and_eq_true, beq_iff_eq] using hx2
          rw [← heq.1, ← heq.2, hpa.1, hpa.2] at hnone
          rw [hnone] at hfind
          cases hfind
        refine ⟨a, ?_, hv⟩
        simp only [step, h]
        rw [findAssignment_markVoted, findAssignment_append _ _ _ _ _ hfind]
        simp [hkey]
        intro h1 h2
        rw [h1, h2] at hkey
        simp at hkey
      · have hkey : (a.voterId == u.id && a.electionId == el.id) = false := by
          by_contra hx
          have hx2 : (a.voterId == u.id && a.electionId == el.id) = true := by
            cases hxx : (a.voterId == u.id && a.electionId == el.id)
            · exact absurd hxx hx
            · rfl
          have heq : a.voterId = u.id ∧ a.electionId = el.id := by
            simpa [Bool.and_eq_true, beq_iff_eq] using hx2
          rw [← heq.1, ← heq.2, hpa.1, hpa.2] at hfa0
          rw [hfa0] at hfind
          injection hfind with hfind
          rw [hfind] at hv0
          rw [hv] at hv0
          cases hv0
        refine ⟨a, ?_, hv⟩
        simp only [step, h]
        rw [findAssignment_markVoted, hfind]
        simp [hkey]
        intro h1 h2
        rw [h1, h2] at hkey
        simp at hkey

theorem votedAt_preserved_ops (ops : List Op) (db : DB) (v e : Nat)
    (a : BallotAssignment) (t : Int)
    (hfind : findAssignment db.assignments v e = some a) (hv : a.votedAt = some t) :
    ∃ a2, findAssignment (ops.foldl step db).assignments v e = some a2 ∧
      a2.votedAt = some t := by
  induction ops generalizing db a with
  | nil => exact ⟨a, hfind, hv⟩
  | cons op rest ih =>
      rw [List.foldl_cons]
      obtain ⟨a2, h1, h2⟩ := votedAt_preserved_step db op v e a t hfind hv
      exact ih (step db op) a2 h1 h2

theorem submitVote_success_marks (db : DB) (u : User) (now : Int) (sel : List Selection)
    (rcpt : String) (db1 : DB) (resp : SubmitResponse) (el : Election)
    (hoe : electionOpen db now = Except.ok el)
    (hrun : submitVote db u now sel rcpt true = (db1, Except.ok resp)) :
    ∃ a1, findAssignment db1.assignments u.id el.id = some a1 ∧
      a1.votedAt = some now := by
  cases hfa : findAssignment db.assignments u.id el.id with
  | none =>
      have hob : oneBallotOnly db u.id el.id now =
          ({ db with assignments := db.assignments ++
              [{ voterId := u.id, electionId := el.id, issuedAt := now, votedAt := none }] },
            Except.ok { voterId := u.id, electionId := el.id, issuedAt := now, votedAt := none }) := by
        unfold oneBallotOnly
        rw [hfa]
      simp only [submitVote, hoe, hob, auditWrite, if_true, Prod.mk.injEq] at hrun
      obtain ⟨hdb1, -⟩ := hrun
      subst hdb1
      refine ⟨{ voterId := u.id, electionId := el.id, issuedAt := now, votedAt := some now },
        ?_, rfl⟩
      show findAssignment (markVoted (db.assignments ++
        [{ voterId := u.id, electionId := el.id, issuedAt := now, votedAt := none }])
        u.id el.id now) u.id el.id = _
      rw [findAssignment_markVoted,
        findAssignment_append_self db.assignments u.id el.id _ hfa rfl rfl]
      simp
  | some a0 =>
      cases hv0 : a0.votedAt with
      | some t0 =>
          have hob : oneBallotOnly db u.id el.id now =
              (db, Except.error ApiError.alreadyVoted) := by
            simp [oneBallotOnly, hfa, hv0]
          simp only [submitVote, hoe, hob] at hrun
          simp at hrun
      | none =>
          have hob : oneBallotOnly db u.id el.id now = (db, Except.ok a0) := by
            simp [oneBallotOnly, hfa, hv0]
          simp only [submitVote, hoe, hob, auditWrite, if_true, Prod.mk.injEq] at hrun
          obtain ⟨hdb1, -⟩ := hrun
          subst hdb1
          refine ⟨{ a0 with votedAt := some now }, ?_, rfl⟩
          show findAssignment (markVoted db.assignments u.id el.id now) u.id el.id = _
          rw [findAssignment_markVoted, hfa]
          have hfa2 : List.find? (fun x => x.voterId == u.id && x.electionId == el.id)
              db.assignments = some a0 := hfa
          have hk0 := List.find?_some hfa2
          have hk : (a0.voterId == u.id && a0.electionId == el.id) = true := hk0
          simp [hk]
          intro hcon
          have heq : a0.voterId = u.id ∧ a0.electionId = el.id := by
            simpa [Bool.and_eq_true, beq_iff_eq] using hk
          exact absurd heq.2 (hcon heq.1)

/-- Claim C1: at most one vote-completion ever succeeds per assignment.  After
a voter's submitVote has succeeded (setting votedAt to the submission time),
the assignment keeps that votedAt through any later sequence of requests, and
every later submitVote by the same voter for the same election — whenever it
reaches the ballot check, i.e. the configured election still has that id and
is within its open window — fails with the already-voted error and leaves the
whole state unchanged: votedAt is not altered and no second AnonymousVote is
recorded. -/
theorem one_vote_per_assignment (db : DB) (u : User) (now : Int) (sel : List Selection)
    (rcpt : String) (db1 : DB) (resp : SubmitResponse) (el : Election)
    (hoe : electionOpen db now = Except.ok el)
    (hrun : submitVote db u now sel rcpt true = (db1, Except.ok resp))
    (ops : List Op) :
    (∃ a2, findAssignment (ops.foldl step db1).assignments u.id el.id = some a2 ∧
      a2.votedAt = some now) ∧
    (∀ (u2 : User) (now2 : Int) (sel2 : List Selection) (rcpt2 : String) (aok2 : Bool)
      (el2 : Election), u2.id = u.id →
      (ops.foldl step db1).election = some el2 → el2.id = el.id →
      el2.isOpen = true → el2.startAt ≤ now2 → now2 ≤ el2.endAt →
      submitVote (ops.foldl step db1) u2 now2 sel2 rcpt2 aok2 =
        (ops.foldl step db1, Except.error ApiError.alreadyVoted)) := by
  obtain ⟨a1, hf1, hv1⟩ := submitVote_success_marks db u now sel rcpt db1 resp el hoe hrun
  obtain ⟨a2, hf2, hv2⟩ := votedAt_preserved_ops ops db1 u.id el.id a1 now hf1 hv1
  refine ⟨⟨a2, hf2, hv2⟩, ?_⟩
  intro u2 now2 sel2 rcpt2 aok2 el2 hu2 hel2 hid2 hopen2 hw1 hw2
  have hoe2 : electionOpen (ops.foldl step db1) now2 = Except.ok el2 :=
    electionOpen_ok_of _ now2 el2 hel2 hopen2 hw1 hw2
  have hfind2 : findAssignment (ops.foldl step db1).assignments u2.id el2.id = some a2 := by
    rw [hu2, hid2]
    exact hf2
  refine submitVote_rejected_of_voted _ u2 now2 sel2 rcpt2 aok2 el2 a2 hoe2 hfind2 ?_
  rw [hv2]
  rfl

/-- The concrete state after wVoter's successful submission at time 10. -/
def wDB1 : DB :=
  { election := some wEl,
    assignments := [{ voterId := 7, electionId := 1, issuedAt := 10, votedAt := some 10 }],
    votes := [{ electionId := 1,
                selections := [{ contestId := "C1", selectedCandidateIds := ["A"] }],
                submittedAt := 10, receipt := "r1" }],
    auditLog := [{ actor := "v1@example.com", actorId := some 7, action := "vote_submitted",
                   detailsReceipt := some "r1", detailsTotalVotes := none }] }

theorem one_vote_per_assignment_witness :
    (∃ a2, findAssignment (([Op.reqBallot wVoter 20 true]).foldl step wDB1).assignments
        wVoter.id wEl.id = some a2 ∧ a2.votedAt = some 10) ∧
    submitVote (([Op.reqBallot wVoter 20 true]).foldl step wDB1) wVoter 30 [] "r2" true =
      (([Op.reqBallot wVoter 20 true]).foldl step wDB1,
        Except.error ApiError.alreadyVoted) :=
  ⟨(one_vote_per_assignment wDB wVoter 10
      [{ contestId := "C1", selectedCandidateIds := ["A"] }] "r1" wDB1
      { message := "Vote submitted", receipt := "r1" } wEl rfl rfl
      [Op.reqBallot wVoter 20 true]).1,
   (one_vote_per_assignment wDB wVoter 10
      [{ contestId := "C1", selectedCandidateIds := ["A"] }] "r1" wDB1
      { message := "Vote submitted", receipt := "r1" } wEl rfl rfl
      [Op.reqBallot wVoter 20 true]).2 wVoter 30 [] "r2" true wEl rfl (by decide) rfl rfl
      (by decide) (by decide)⟩

end Voting
